import Mathlib

/-!
Verification of the AAAos network stack's client-side protocol layer
(HTTP/1.1 client and ICMP ping engine) against its specification.

The repository ships the interface headers `src/net/http/http.h` and
`src/net/icmp/icmp.h`; the function bodies are not part of the sources,
so every operation below is modelled from the specification's
description (spec.md §4), faithfully to its words, over byte lists
(`List Nat`, each element a byte value).
-/

set_option maxRecDepth 4096
set_option linter.unusedVariables false

/-! ## Constants from src/net/http/http.h and src/net/icmp/icmp.h -/

def HTTP_DEFAULT_PORT : Nat := 80

def HTTP_MAX_HEADERS : Nat := 32

def HTTP_MAX_HOST_LEN : Nat := 256

def HTTP_MAX_PATH_LEN : Nat := 1024

def HTTP_MAX_BODY_SIZE : Nat := 1 * 1024 * 1024

def HTTP_TIMEOUT_MS : Nat := 30000

def HTTP_OK : Int := 0

def HTTP_ERR_INVALID_URL : Int := -1

def HTTP_ERR_CONNECT_FAILED : Int := -3

def HTTP_ERR_SEND_FAILED : Int := -4

def HTTP_ERR_PARSE_FAILED : Int := -8

def HTTP_ERR_BUFFER_OVERFLOW : Int := -9

def HTTP_ERR_INVALID_RESPONSE : Int := -10

def PING_DEFAULT_COUNT : Nat := 4

def ICMP_OK : Int := 0

def ICMP_ERR_INVALID : Int := -2

def ICMP_ERR_BUSY : Int := -6

/-! ## Byte-level utilities -/

/-- Modelled from the spec: bytes of an ASCII string, used to state
concrete wire fragments. -/
def strBytes (s : String) : List Nat :=
  s.data.map (fun c => c.toNat)

/-- CRLF line terminator bytes. -/
def crlf : List Nat := [13, 10]

/-- ASCII decimal digit test. -/
def isDigitByte (c : Nat) : Bool :=
  48 ≤ c && c ≤ 57

/-- ASCII hexadecimal digit test. -/
def isHexByte (c : Nat) : Bool :=
  (48 ≤ c && c ≤ 57) || (97 ≤ c && c ≤ 102) || (65 ≤ c && c ≤ 70)

/-- Value of one hexadecimal digit byte (0 for non-digits). -/
def hexDigitVal (c : Nat) : Nat :=
  if 48 ≤ c && c ≤ 57 then c - 48
  else if 97 ≤ c && c ≤ 102 then c - 87
  else if 65 ≤ c && c ≤ 70 then c - 55
  else 0

/-- ASCII lower-casing of one byte. -/
def toLowerByte (c : Nat) : Nat :=
  if 65 ≤ c && c ≤ 90 then c + 32 else c

/-- Case-insensitive equality of byte strings (the spec's single
explicit case-insensitive comparator, §9). -/
def lowerEq (a b : List Nat) : Bool :=
  a.map toLowerByte = b.map toLowerByte

/-- Decimal value of a digit string. -/
def decVal (l : List Nat) : Nat :=
  l.foldl (fun a c => a * 10 + (c - 48)) 0

/-- Modelled from the spec: parse a non-empty all-digit decimal string,
`none` otherwise. -/
def parseDecimal (l : List Nat) : Option Nat :=
  if l ≠ [] ∧ l.all isDigitByte then some (decVal l) else none

/-- Hexadecimal value of a hex-digit string. -/
def hexVal (l : List Nat) : Nat :=
  l.foldl (fun a c => a * 16 + hexDigitVal c) 0

/-- One decimal digit as an ASCII byte. -/
def decDigitChar (d : Nat) : Nat := d + 48

/-- One hexadecimal digit as an ASCII byte (lowercase letters). -/
def hexDigitChar (d : Nat) : Nat :=
  if d < 10 then d + 48 else d + 87

/-- Decimal rendering of a natural number as ASCII bytes. -/
def natToDecBytes (n : Nat) : List Nat :=
  if h : n < 10 then [decDigitChar n]
  else natToDecBytes (n / 10) ++ [decDigitChar (n % 10)]
decreasing_by
  exact Nat.div_lt_self (by omega) (by omega)

/-- Hexadecimal rendering of a natural number as ASCII bytes. -/
def natToHexBytes (n : Nat) : List Nat :=
  if h : n < 16 then [hexDigitChar n]
  else natToHexBytes (n / 16) ++ [hexDigitChar (n % 16)]
decreasing_by
  exact Nat.div_lt_self (by omega) (by omega)

/-! ## ICMP checksum (spec §4.1, `icmp_checksum` in src/net/icmp/icmp.h) -/

/-- Modelled from the spec: sum of the buffer's 16-bit words in network
order; an odd trailing byte is the high byte of a zero-padded word. -/
def icmpSum16 : List Nat → Nat
  | [] => 0
  | [b] => b * 256
  | b1 :: b2 :: rest => b1 * 256 + b2 + icmpSum16 rest

/-- Modelled from the spec: end-around carry folding of a sum into
16 bits.  The fuel argument bounds the iteration; each step strictly
decreases the value, so fuel equal to the initial sum always suffices. -/
def foldCarryAux : Nat → Nat → Nat
  | 0, s => s % 65536
  | fuel + 1, s => if s < 65536 then s else foldCarryAux fuel (s % 65536 + s / 65536)

/-- End-around carry fold of a checksum accumulator. -/
def foldCarry (s : Nat) : Nat := foldCarryAux s s

/-- Modelled from the spec: `icmp_checksum(data, len)` — one's
complement of the end-around-carry sum of 16-bit words
(src/net/icmp/icmp.h line 267, spec §4.1). -/
def icmp_checksum (data : List Nat) : Nat :=
  65535 - foldCarry (icmpSum16 data)

theorem foldCarryAux_lt (fuel s : Nat) : foldCarryAux fuel s < 65536 := by
  induction fuel generalizing s with
  | zero => exact Nat.mod_lt _ (by omega)
  | succ n ih =>
    unfold foldCarryAux
    split
    · assumption
    · exact ih _

theorem foldCarry_lt (s : Nat) : foldCarry s < 65536 :=
  foldCarryAux_lt s s

/-- Padding an odd-length buffer with a zero byte does not change the
16-bit word sum. -/
theorem icmpSum16_pad (l : List Nat) (h : l.length % 2 = 1) :
    icmpSum16 (l ++ [0]) = icmpSum16 l := by
  induction l using icmpSum16.induct with
  | case1 => simp at h
  | case2 b => simp [icmpSum16]
  | case3 b1 b2 rest ih =>
    have h2 : rest.length % 2 = 1 := by
      simp [List.length_cons] at h
      omega
    simp [icmpSum16, ih h2]

/-- C6: `icmp_checksum` is a pure function over (data, len): the empty
buffer yields 0xFFFF, the result always fits in 16 bits, and an odd
final byte acts as the high byte of a zero-padded 16-bit word. -/
theorem icmp_checksum_spec :
    icmp_checksum [] = 65535 ∧
    (∀ data : List Nat, icmp_checksum data < 65536) ∧
    (∀ data : List Nat, data.length % 2 = 1 →
      icmp_checksum (data ++ [0]) = icmp_checksum data) := by
  refine ⟨rfl, ?_, ?_⟩
  · intro data
    have := foldCarry_lt (icmpSum16 data)
    unfold icmp_checksum
    omega
  · intro data h
    unfold icmp_checksum
    rw [icmpSum16_pad data h]

/-- C6 witness: concrete odd-length buffer evaluated through the claim. -/
theorem icmp_checksum_spec_witness :
    [(8 : Nat), 0, 1].length % 2 = 1 ∧
    icmp_checksum ([8, 0, 1] ++ [0]) = icmp_checksum [8, 0, 1] :=
  ⟨by decide, icmp_checksum_spec.2.2 [8, 0, 1] (by decide)⟩

/-! ## Digit-string round trips -/

theorem decVal_append_digit (xs : List Nat) (d : Nat) :
    decVal (xs ++ [d]) = decVal xs * 10 + (d - 48) := by
  simp [decVal, List.foldl_append]

theorem hexVal_append_digit (xs : List Nat) (d : Nat) :
    hexVal (xs ++ [d]) = hexVal xs * 16 + hexDigitVal d := by
  simp [hexVal, List.foldl_append]

theorem isDigitByte_decDigitChar (d : Nat) (h : d < 10) :
    isDigitByte (decDigitChar d) = true := by
  interval_cases d <;> rfl

theorem isHexByte_hexDigitChar (d : Nat) (h : d < 16) :
    isHexByte (hexDigitChar d) = true := by
  interval_cases d <;> rfl

theorem hexDigitVal_hexDigitChar (d : Nat) (h : d < 16) :
    hexDigitVal (hexDigitChar d) = d := by
  interval_cases d <;> rfl

theorem decDigitChar_sub (d : Nat) (h : d < 10) :
    decDigitChar d - 48 = d := by
  unfold decDigitChar
  omega

theorem natToDecBytes_all_digits (n : Nat) :
    ∀ c ∈ natToDecBytes n, isDigitByte c = true := by
  induction n using natToDecBytes.induct with
  | case1 n h =>
    intro c hc
    unfold natToDecBytes at hc
    simp [h] at hc
    subst hc
    exact isDigitByte_decDigitChar n h
  | case2 n h ih =>
    intro c hc
    unfold natToDecBytes at hc
    simp [h] at hc
    rcases hc with hc | hc
    · exact ih c hc
    · subst hc
      exact isDigitByte_decDigitChar _ (Nat.mod_lt _ (by omega))

theorem decVal_natToDecBytes (n : Nat) : decVal (natToDecBytes n) = n := by
  induction n using natToDecBytes.induct with
  | case1 n h =>
    unfold natToDecBytes
    simp [h, decVal, decDigitChar]
  | case2 n h ih =>
    unfold natToDecBytes
    simp only [h, dite_false]
    rw [decVal_append_digit, ih, decDigitChar_sub _ (Nat.mod_lt _ (by omega))]
    omega

theorem natToDecBytes_ne_nil (n : Nat) : natToDecBytes n ≠ [] := by
  unfold natToDecBytes
  split <;> simp

theorem parseDecimal_natToDecBytes (n : Nat) :
    parseDecimal (natToDecBytes n) = some n := by
  unfold parseDecimal
  rw [if_pos]
  · rw [decVal_natToDecBytes]
  · exact ⟨natToDecBytes_ne_nil n, List.all_eq_true.mpr (natToDecBytes_all_digits n)⟩

theorem natToHexBytes_all_hex (n : Nat) :
    ∀ c ∈ natToHexBytes n, isHexByte c = true := by
  induction n using natToHexBytes.induct with
  | case1 n h =>
    intro c hc
    unfold natToHexBytes at hc
    simp [h] at hc
    subst hc
    exact isHexByte_hexDigitChar n h
  | case2 n h ih =>
    intro c hc
    unfold natToHexBytes at hc
    simp [h] at hc
    rcases hc with hc | hc
    · exact ih c hc
    · subst hc
      exact isHexByte_hexDigitChar _ (Nat.mod_lt _ (by omega))

theorem hexVal_natToHexBytes (n : Nat) : hexVal (natToHexBytes n) = n := by
  induction n using natToHexBytes.induct with
  | case1 n h =>
    unfold natToHexBytes
    simp [h, hexVal, hexDigitVal_hexDigitChar n h]
  | case2 n h ih =>
    unfold natToHexBytes
    simp only [h, dite_false]
    rw [hexVal_append_digit, ih, hexDigitVal_hexDigitChar _ (Nat.mod_lt _ (by omega))]
    omega

theorem natToHexBytes_ne_nil (n : Nat) : natToHexBytes n ≠ [] := by
  unfold natToHexBytes
  split <;> simp

/-! ## Generic list helpers -/

theorem takeWhile_all (p : Nat → Bool) :
    ∀ l : List Nat, (∀ c ∈ l, p c = true) → l.takeWhile p = l := by
  intro l
  induction l with
  | nil => intro _; rfl
  | cons c rest ih =>
    intro h
    have hc : p c = true := h c (by simp)
    simp [List.takeWhile, hc]
    exact fun x hx => h x (List.mem_cons_of_mem c hx)

theorem takeWhile_append_stop (p : Nat → Bool) (l t : List Nat)
    (hl : ∀ c ∈ l, p c = true) (ht : t.takeWhile p = []) :
    (l ++ t).takeWhile p = l := by
  rw [List.takeWhile_append, takeWhile_all p l hl]
  simp [ht]

/-! ## URL parser (spec §4.2, `http_parse_url` in src/net/http/http.h) -/

/-- Host characters stop at `:` or `/`. -/
def hostPred (c : Nat) : Bool := (c != 58) && (c != 47)

/-- Bytes following the `http://` scheme prefix. -/
def urlRest (url : List Nat) : List Nat := url.drop 7

/-- Modelled from the spec: host extracted up to `:`, `/`, or end. -/
def urlHost (url : List Nat) : List Nat := (urlRest url).takeWhile hostPred

/-- Bytes following the host component. -/
def urlAfterHost (url : List Nat) : List Nat :=
  (urlRest url).drop (urlHost url).length

/-- Port component digits-string, `none` when the component is absent. -/
def urlPortStr (url : List Nat) : Option (List Nat) :=
  match urlAfterHost url with
  | 58 :: pr => some (pr.takeWhile (fun c => c != 47))
  | _ => none

/-- Modelled from the spec: port value, defaulting to 80 when the
component is absent or non-numeric; stored through a uint16_t. -/
def urlPort (url : List Nat) : Nat :=
  match urlPortStr url with
  | some ps => ((parseDecimal ps).getD 80) % 65536
  | none => 80

/-- Raw path component (everything from the first `/` after the host). -/
def urlRawPath (url : List Nat) : List Nat :=
  match urlAfterHost url with
  | 58 :: pr => pr.drop ((pr.takeWhile (fun c => c != 47)).length)
  | other => other

/-- Modelled from the spec: path component, an empty path defaults
to `/`. -/
def urlPath (url : List Nat) : List Nat :=
  if urlRawPath url = [] then [47] else urlRawPath url

/-- Modelled from the spec: `http_parse_url(url, host, port, path)`
(src/net/http/http.h line 207, spec §4.2).  Fails with InvalidUrl on
empty input / missing or non-http scheme, empty host, or host/path
longer than the output buffers; otherwise returns (host, port, path). -/
def http_parse_url (url : List Nat) :
    Except Int (List Nat × Nat × List Nat) :=
  if url.take 7 ≠ strBytes "http://" then .error HTTP_ERR_INVALID_URL
  else if urlHost url = [] then .error HTTP_ERR_INVALID_URL
  else if HTTP_MAX_HOST_LEN < (urlHost url).length then .error HTTP_ERR_INVALID_URL
  else if HTTP_MAX_PATH_LEN < (urlPath url).length then .error HTTP_ERR_INVALID_URL
  else .ok (urlHost url, urlPort url, urlPath url)

/-- Modelled from the spec: assemble `http://h[:p]path` from parts. -/
def buildUrl (h : List Nat) (p : Nat) (withPort : Bool) (path : List Nat) :
    List Nat :=
  strBytes "http://" ++ h ++ (if withPort then 58 :: natToDecBytes p else []) ++ path

theorem strBytes_http_len : (strBytes "http://").length = 7 := rfl

theorem digit_ne_47 (c : Nat) (h : isDigitByte c = true) : (c != 47) = true := by
  simp only [isDigitByte, Bool.and_eq_true, decide_eq_true_eq] at h
  simp only [bne_iff_ne, ne_eq]
  omega

theorem hostPred_of_host (hst : List Nat) (hhost : ∀ c ∈ hst, c ≠ 58 ∧ c ≠ 47) :
    ∀ c ∈ hst, hostPred c = true := by
  intro c hc
  have := hhost c hc
  simp only [hostPred, Bool.and_eq_true, bne_iff_ne, ne_eq]
  exact ⟨this.1, this.2⟩

theorem takeWhile_path_nil (p : Nat → Bool) (path : List Nat)
    (hpath : path = [] ∨ path.head? = some 47) (h47 : p 47 = false) :
    path.takeWhile p = [] := by
  rcases hpath with h0 | h0
  · simp [h0]
  · cases path with
    | nil => rfl
    | cons c t =>
      simp only [List.head?] at h0
      have : c = 47 := by injection h0
      subst this
      simp [List.takeWhile, h47]

/-- C4: parsing the URL assembled from host, optional port, and path
with `http_parse_url` returns exactly the host, the port (80 when the
port component is omitted), and the path (`/` when the path component
is empty). -/
theorem http_parse_url_roundtrip (h : List Nat) (p : Nat) (withPort : Bool)
    (path : List Nat)
    (hne : h ≠ [])
    (hhost : ∀ c ∈ h, c ≠ 58 ∧ c ≠ 47)
    (hlen : h.length ≤ HTTP_MAX_HOST_LEN)
    (hpath : path = [] ∨ path.head? = some 47)
    (hplen : path.length ≤ HTTP_MAX_PATH_LEN)
    (hp : p < 65536) :
    http_parse_url (buildUrl h p withPort path) =
      .ok (h, (if withPort then p else 80), (if path = [] then [47] else path)) := by
  have hhostb : ∀ c ∈ h, hostPred c = true := hostPred_of_host h hhost
  have hpathtw : path.takeWhile hostPred = [] :=
    takeWhile_path_nil hostPred path hpath (by decide)
  cases withPort with
  | true =>
    have hu : buildUrl h p true path =
        strBytes "http://" ++ (h ++ (58 :: (natToDecBytes p ++ path))) := by
      simp [buildUrl, List.append_assoc]
    have hrest : urlRest (buildUrl h p true path) =
        h ++ (58 :: (natToDecBytes p ++ path)) := by
      unfold urlRest
      rw [hu, ← strBytes_http_len, List.drop_left]
    have hHost : urlHost (buildUrl h p true path) = h := by
      unfold urlHost
      rw [hrest]
      refine takeWhile_append_stop _ _ _ hhostb ?_
      simp [List.takeWhile, hostPred]
    have hAfter : urlAfterHost (buildUrl h p true path) =
        58 :: (natToDecBytes p ++ path) := by
      unfold urlAfterHost
      rw [hrest, hHost, List.drop_left]
    have hptw : (natToDecBytes p ++ path).takeWhile (fun c => c != 47) =
        natToDecBytes p := by
      refine takeWhile_append_stop _ _ _ ?_ ?_
      · intro c hc
        exact digit_ne_47 c (natToDecBytes_all_digits p c hc)
      · exact takeWhile_path_nil _ path hpath (by decide)
    have hPort : urlPort (buildUrl h p true path) = p := by
      unfold urlPort urlPortStr
      rw [hAfter]
      simp only [hptw, parseDecimal_natToDecBytes, Option.getD_some]
      exact Nat.mod_eq_of_lt hp
    have hRaw : urlRawPath (buildUrl h p true path) = path := by
      unfold urlRawPath
      rw [hAfter]
      simp only [hptw]
      exact List.drop_left _ _
    have hPath : urlPath (buildUrl h p true path) =
        (if path = [] then [47] else path) := by
      unfold urlPath
      rw [hRaw]
    unfold http_parse_url
    rw [hHost, hPort, hPath]
    have htake : (buildUrl h p true path).take 7 = strBytes "http://" := by
      rw [hu, ← strBytes_http_len, List.take_left]
    rw [htake]
    have hplen2 : ¬ (HTTP_MAX_PATH_LEN < (if path = [] then [47] else path).length) := by
      split
      · decide
      · exact Nat.not_lt.mpr hplen
    simp [hne, Nat.not_lt.mpr hlen, hplen2]
  | false =>
    have hu : buildUrl h p false path = strBytes "http://" ++ (h ++ path) := by
      simp [buildUrl, List.append_assoc]
    have hrest : urlRest (buildUrl h p false path) = h ++ path := by
      unfold urlRest
      rw [hu, ← strBytes_http_len, List.drop_left]
    have hHost : urlHost (buildUrl h p false path) = h := by
      unfold urlHost
      rw [hrest]
      exact takeWhile_append_stop _ _ _ hhostb hpathtw
    have hAfter : urlAfterHost (buildUrl h p false path) = path := by
      unfold urlAfterHost
      rw [hrest, hHost, List.drop_left]
    have hNo58 : ∀ pr : List Nat, path = 58 :: pr → False := by
      intro pr hpr
      rcases hpath with h0 | h0
      · simp [hpr] at h0
      · rw [hpr] at h0
        simp [List.head?] at h0
    have hPort : urlPort (buildUrl h p false path) = 80 := by
      unfold urlPort urlPortStr
      rw [hAfter]
      rcases hpath with h0 | h0
      · simp [h0]
      · cases path with
        | nil => rfl
        | cons c t =>
          simp only [List.head?] at h0
          have hc : c = 47 := by injection h0
          subst hc
          rfl
    have hRaw : urlRawPath (buildUrl h p false path) = path := by
      unfold urlRawPath
      rw [hAfter]
      rcases hpath with h0 | h0
      · simp [h0]
      · cases path with
        | nil => rfl
        | cons c t =>
          simp only [List.head?] at h0
          have hc : c = 47 := by injection h0
          subst hc
          rfl
    have hPath : urlPath (buildUrl h p false path) =
        (if path = [] then [47] else path) := by
      unfold urlPath
      rw [hRaw]
    unfold http_parse_url
    rw [hHost, hPort, hPath]
    have htake : (buildUrl h p false path).take 7 = strBytes "http://" := by
      rw [hu, ← strBytes_http_len, List.take_left]
    rw [htake]
    have hplen2 : ¬ (HTTP_MAX_PATH_LEN < (if path = [] then [47] else path).length) := by
      split
      · decide
      · exact Nat.not_lt.mpr hplen
    simp [hne, Nat.not_lt.mpr hlen, hplen2]

/-- C4 witness: a concrete URL with explicit port round-trips. -/
theorem http_parse_url_roundtrip_witness :
    strBytes "example.com" ≠ [] ∧
    (∀ c ∈ strBytes "example.com", c ≠ 58 ∧ c ≠ 47) ∧
    (strBytes "example.com").length ≤ HTTP_MAX_HOST_LEN ∧
    (strBytes "/idx" = [] ∨ (strBytes "/idx").head? = some 47) ∧
    (strBytes "/idx").length ≤ HTTP_MAX_PATH_LEN ∧
    8080 < 65536 ∧
    http_parse_url (buildUrl (strBytes "example.com") 8080 true (strBytes "/idx")) =
      .ok (strBytes "example.com", (if (true : Bool) then 8080 else 80),
           (if strBytes "/idx" = [] then [47] else strBytes "/idx")) :=
  ⟨by decide, by decide, by decide, by decide, by decide, by decide,
   http_parse_url_roundtrip (strBytes "example.com") 8080 true (strBytes "/idx")
     (by decide) (by decide) (by decide) (by decide) (by decide) (by decide)⟩

/-- C5: `http_parse_url` returns InvalidUrl exactly when the scheme
prefix is missing or not `http://` (which covers empty input), the host
is empty, or the host/path lengths exceed HTTP_MAX_HOST_LEN /
HTTP_MAX_PATH_LEN; an absent or non-numeric port component is no error
and yields port 80. -/
theorem http_parse_url_errors (url : List Nat) :
    (http_parse_url url = .error HTTP_ERR_INVALID_URL ↔
      (url.take 7 ≠ strBytes "http://" ∨ urlHost url = [] ∨
       HTTP_MAX_HOST_LEN < (urlHost url).length ∨
       HTTP_MAX_PATH_LEN < (urlPath url).length)) ∧
    (urlPortStr url = none → urlPort url = 80) ∧
    (∀ ps, urlPortStr url = some ps → parseDecimal ps = none →
      urlPort url = 80) := by
  refine ⟨?_, ?_, ?_⟩
  · unfold http_parse_url
    split_ifs with h1 h2 h3 h4 <;> simp_all
  · intro h0
    unfold urlPort
    rw [h0]
  · intro ps hps hnone
    unfold urlPort
    rw [hps]
    simp [hnone]

/-- C5 witness: a bad scheme is rejected, and a non-numeric port yields
80 without an error. -/
theorem http_parse_url_errors_witness :
    http_parse_url (strBytes "ftp://x") = .error HTTP_ERR_INVALID_URL ∧
    urlPort (strBytes "http://h:ab/p") = 80 :=
  ⟨(http_parse_url_errors (strBytes "ftp://x")).1.mpr (Or.inl (by decide)),
   (http_parse_url_errors (strBytes "http://h:ab/p")).2.2 (strBytes "ab")
     (by decide) (by decide)⟩

/-! ## HTTP response parsing (spec §4.4, `http_parse_response` in
src/net/http/http.h) -/

/-- Modelled from the spec: split off one CRLF-terminated line; `none`
when no full line is available yet (truncated input). -/
def readLine : List Nat → Option (List Nat × List Nat)
  | [] => none
  | c :: rest =>
    if c = 13 then
      match rest with
      | 10 :: rest2 => some ([], rest2)
      | _ =>
        match readLine rest with
        | none => none
        | some (l, r) => some (c :: l, r)
    else
      match readLine rest with
      | none => none
      | some (l, r) => some (c :: l, r)

theorem readLine_append (l : List Nat) (rest : List Nat)
    (h : ∀ c ∈ l, c ≠ 13) :
    readLine (l ++ 13 :: 10 :: rest) = some (l, rest) := by
  induction l with
  | nil => rfl
  | cons c t ih =>
    have hc : c ≠ 13 := h c (by simp)
    have ht : ∀ x ∈ t, x ≠ 13 := fun x hx => h x (List.mem_cons_of_mem c hx)
    simp only [List.cons_append, readLine, if_neg hc, List.append_eq, ih ht]

/-- Modelled from the spec: parse `HTTP/1.1 SP status-code SP
status-text`; `none` on a malformed status line (e.g. missing HTTP
version token). -/
def parseStatusLine (line : List Nat) : Option (Nat × List Nat) :=
  if line.take 9 ≠ strBytes "HTTP/1.1 " then none
  else
    let rest := line.drop 9
    let ds := rest.takeWhile isDigitByte
    if ds = [] then none
    else
      match rest.drop ds.length with
      | [] => some (decVal ds, [])
      | 32 :: text => some (decVal ds, text)
      | _ => none

/-- Modelled from the spec: parse one `Name: Value` header line, the
value with leading spaces skipped; `none` when no colon is present or
the name is empty. -/
def parseHeaderLine (line : List Nat) : Option (List Nat × List Nat) :=
  let name := line.takeWhile (fun c => c != 58)
  let rest := line.drop name.length
  match rest with
  | 58 :: v => if name = [] then none else some (name, v.dropWhile (fun c => c == 32))
  | _ => none

/-- Modelled from the spec: read header lines until the bare CRLF,
capping the count at HTTP_MAX_HEADERS (excess lines are an error, not
silently dropped).  Returns the headers and the bytes after the blank
line.  Fuel bounds the recursion; callers supply more fuel than there
are lines. -/
def parseHeadersAux : Nat → Nat → List Nat →
    Except Int (List (List Nat × List Nat) × List Nat)
  | 0, _, _ => .error HTTP_ERR_INVALID_RESPONSE
  | fuel + 1, count, input =>
    match readLine input with
    | none => .error HTTP_ERR_INVALID_RESPONSE
    | some ([], rest) => .ok ([], rest)
    | some (line, rest) =>
      if HTTP_MAX_HEADERS ≤ count then .error HTTP_ERR_PARSE_FAILED
      else
        match parseHeaderLine line with
        | none => .error HTTP_ERR_PARSE_FAILED
        | some hdr =>
          match parseHeadersAux fuel (count + 1) rest with
          | .error e => .error e
          | .ok (hs, r) => .ok (hdr :: hs, r)

theorem parseHeadersAux_blank (fuel count : Nat) (rest : List Nat) :
    parseHeadersAux (fuel + 1) count (13 :: 10 :: rest) = .ok ([], rest) := by
  rfl

theorem parseHeadersAux_cons (fuel count : Nat) (line rest : List Nat)
    (hdr : List Nat × List Nat)
    (hnc : ∀ c ∈ line, c ≠ 13) (hne : line ≠ [])
    (hcount : count < HTTP_MAX_HEADERS)
    (hparse : parseHeaderLine line = some hdr) :
    parseHeadersAux (fuel + 1) count (line ++ 13 :: 10 :: rest) =
      match parseHeadersAux fuel (count + 1) rest with
      | .error e => .error e
      | .ok (hs, r) => .ok (hdr :: hs, r) := by
  conv_lhs => rw [parseHeadersAux]
  rw [readLine_append line rest hnc]
  cases line with
  | nil => exact absurd rfl hne
  | cons c t =>
    simp only [hparse, if_neg (Nat.not_le.mpr hcount)]

/-- Modelled from the spec: parse a chunk-size line — hex digits, an
optional `;extension` ignored; `none` when malformed. -/
def parseChunkSize (line : List Nat) : Option Nat :=
  let ds := line.takeWhile isHexByte
  if ds = [] then none
  else
    match line.drop ds.length with
    | [] => some (hexVal ds)
    | 59 :: _ => some (hexVal ds)
    | _ => none

/-- Modelled from the spec: consume optional trailer headers after the
zero-size chunk up to the terminating bare CRLF. -/
def consumeTrailers : Nat → List Nat → Except Int Unit
  | 0, _ => .error HTTP_ERR_INVALID_RESPONSE
  | fuel + 1, input =>
    match readLine input with
    | none => .error HTTP_ERR_INVALID_RESPONSE
    | some ([], _) => .ok ()
    | some (_, rest) => consumeTrailers fuel rest

/-- Chunk loop stage after the chunk size has been parsed; the
recursive continuation of the loop is passed in as `recur`. -/
def decodeAfterSize (recur : Nat → List Nat → Except Int (List Nat))
    (fuelp1 total n : Nat) (rest : List Nat) : Except Int (List Nat) :=
  if n = 0 then
    match consumeTrailers fuelp1 rest with
    | .error e => .error e
    | .ok _ => .ok []
  else if HTTP_MAX_BODY_SIZE < total + n then .error HTTP_ERR_BUFFER_OVERFLOW
  else if rest.length < n + 2 then .error HTTP_ERR_INVALID_RESPONSE
  else
    match rest.drop n with
    | 13 :: 10 :: rest3 =>
      match recur (total + n) rest3 with
      | .error e => .error e
      | .ok b => .ok (rest.take n ++ b)
    | _ => .error HTTP_ERR_PARSE_FAILED

/-- Chunk loop stage after the size line has been split off. -/
def decodeAfterLine (recur : Nat → List Nat → Except Int (List Nat))
    (fuelp1 total : Nat) (line rest : List Nat) : Except Int (List Nat) :=
  match parseChunkSize line with
  | none => .error HTTP_ERR_PARSE_FAILED
  | some n => decodeAfterSize recur fuelp1 total n rest

/-- Modelled from the spec: chunked-body decoding loop (spec §4.4,
Chunked mode) — read the chunk-size line; size 0 consumes trailers and
finishes; otherwise copy `size` bytes, consume the trailing CRLF and
continue.  A chunk that would push the body past HTTP_MAX_BODY_SIZE
fails with BufferOverflow, a malformed size line or missing CRLF with
ParseFailed, truncated input with a need-more-data condition.  Fuel
bounds the recursion; callers supply more fuel than there are lines. -/
def decodeChunkedBody : Nat → Nat → List Nat → Except Int (List Nat)
  | 0, _, _ => .error HTTP_ERR_INVALID_RESPONSE
  | fuel + 1, total, input =>
    match readLine input with
    | none => .error HTTP_ERR_INVALID_RESPONSE
    | some (line, rest) =>
      decodeAfterLine (fun t i => decodeChunkedBody fuel t i) (fuel + 1) total line rest

theorem decodeChunkedBody_step (fuel total : Nat) (input line rest : List Nat)
    (h : readLine input = some (line, rest)) :
    decodeChunkedBody (fuel + 1) total input =
      decodeAfterLine (fun t i => decodeChunkedBody fuel t i) (fuel + 1) total line rest := by
  conv_lhs => rw [decodeChunkedBody]
  rw [h]

theorem decodeAfterLine_step (recur : Nat → List Nat → Except Int (List Nat))
    (fuelp1 total n : Nat) (line rest : List Nat)
    (h : parseChunkSize line = some n) :
    decodeAfterLine recur fuelp1 total line rest =
      decodeAfterSize recur fuelp1 total n rest := by
  unfold decodeAfterLine
  rw [h]

/-- HTTP response structure mirroring `http_response_t`
(src/net/http/http.h lines 88-101). -/
structure http_response_t where
  status_code : Nat
  status_text : List Nat
  headers : List (List Nat × List Nat)
  header_count : Nat
  body : List Nat
  body_len : Nat
  body_capacity : Nat
  chunked : Bool
  content_length : Int
deriving Repr, DecidableEq

/-- The all-zero response the parser starts from and leaves behind on
every error return. -/
def emptyResponse : http_response_t :=
  { status_code := 0, status_text := [], headers := [], header_count := 0,
    body := [], body_len := 0, body_capacity := 0, chunked := false,
    content_length := -1 }

/-- A fully populated successful response: the body buffer is grown to
fit, so capacity equals length. -/
def mkResponse (code : Nat) (text : List Nat)
    (hdrs : List (List Nat × List Nat)) (body : List Nat) (chunked : Bool)
    (cl : Int) : http_response_t :=
  { status_code := code, status_text := text, headers := hdrs,
    header_count := hdrs.length, body := body, body_len := body.length,
    body_capacity := body.length, chunked := chunked, content_length := cl }

/-- Header lookup by case-insensitive name (spec §4.4 `get_header`). -/
def findHeader (hdrs : List (List Nat × List Nat)) (name : List Nat) :
    Option (List Nat) :=
  match hdrs.find? (fun h => lowerEq h.1 name) with
  | some h => some h.2
  | none => none

/-- `Transfer-Encoding: chunked` detection, case-insensitive, taking
precedence over Content-Length (spec §4.4). -/
def isChunked (hdrs : List (List Nat × List Nat)) : Bool :=
  match findHeader hdrs (strBytes "transfer-encoding") with
  | some v => lowerEq v (strBytes "chunked")
  | none => false

/-- Chunked body mode: decode and populate the response. -/
def parseBodyChunked (fuel : Nat) (code : Nat) (text : List Nat)
    (hdrs : List (List Nat × List Nat)) (rest : List Nat) :
    Int × http_response_t :=
  match decodeChunkedBody fuel 0 rest with
  | .error e => (e, emptyResponse)
  | .ok body => (HTTP_OK, mkResponse code text hdrs body true (-1))

/-- ContentLength body mode with the declared length already parsed:
a length beyond HTTP_MAX_BODY_SIZE fails with BufferOverflow before
any body bytes are copied; fewer available bytes than declared is the
need-more-data condition. -/
def parseBodyWithLen (code : Nat) (text : List Nat)
    (hdrs : List (List Nat × List Nat)) (rest : List Nat) (len : Nat) :
    Int × http_response_t :=
  if HTTP_MAX_BODY_SIZE < len then (HTTP_ERR_BUFFER_OVERFLOW, emptyResponse)
  else if rest.length < len then (HTTP_ERR_INVALID_RESPONSE, emptyResponse)
  else (HTTP_OK, mkResponse code text hdrs (rest.take len) false (Int.ofNat len))

/-- ContentLength body mode: parse the header value, then decode. -/
def parseBodyCL (code : Nat) (text : List Nat)
    (hdrs : List (List Nat × List Nat)) (rest : List Nat) (v : List Nat) :
    Int × http_response_t :=
  match parseDecimal v with
  | none => (HTTP_ERR_PARSE_FAILED, emptyResponse)
  | some len => parseBodyWithLen code text hdrs rest len

/-- Body-mode dispatch after the headers have been consumed (spec §4.4
AwaitBody states): Chunked takes precedence, then ContentLength, then
UntilClose (all remaining bytes, still subject to the body cap). -/
def parseBody (fuel : Nat) (code : Nat) (text : List Nat)
    (hdrs : List (List Nat × List Nat)) (rest : List Nat) :
    Int × http_response_t :=
  if isChunked hdrs then parseBodyChunked fuel code text hdrs rest
  else
    match findHeader hdrs (strBytes "content-length") with
    | some v => parseBodyCL code text hdrs rest v
    | none =>
      if HTTP_MAX_BODY_SIZE < rest.length then (HTTP_ERR_BUFFER_OVERFLOW, emptyResponse)
      else (HTTP_OK, mkResponse code text hdrs rest false (-1))

/-- Stage after the status line has been parsed: headers, then body. -/
def parseAfterStatus (fuel : Nat) (code : Nat) (text : List Nat)
    (rest : List Nat) : Int × http_response_t :=
  match parseHeadersAux fuel 0 rest with
  | .error e => (e, emptyResponse)
  | .ok (hdrs, rest2) => parseBody fuel code text hdrs rest2

/-- Stage after the first line has been split off. -/
def parseAfterLine (fuel : Nat) (line rest : List Nat) :
    Int × http_response_t :=
  match parseStatusLine line with
  | none => (HTTP_ERR_PARSE_FAILED, emptyResponse)
  | some (code, text) => parseAfterStatus fuel code text rest

/-- Modelled from the spec: `http_parse_response(data, len, response)`
(src/net/http/http.h line 221, spec §4.4) — status line, then headers,
then the body in Chunked / ContentLength / UntilClose mode.  Returns
the error code together with the response state left behind; every
error return leaves the all-zero response. -/
def http_parse_response (data : List Nat) : Int × http_response_t :=
  match readLine data with
  | none => (HTTP_ERR_INVALID_RESPONSE, emptyResponse)
  | some (line, rest) => parseAfterLine (data.length + 2) line rest

theorem http_parse_response_step (data line rest : List Nat)
    (h : readLine data = some (line, rest)) :
    http_parse_response data = parseAfterLine (data.length + 2) line rest := by
  unfold http_parse_response
  rw [h]

theorem parseAfterLine_step (fuel code : Nat) (text line rest : List Nat)
    (h : parseStatusLine line = some (code, text)) :
    parseAfterLine fuel line rest = parseAfterStatus fuel code text rest := by
  unfold parseAfterLine
  rw [h]

theorem parseAfterStatus_step (fuel code : Nat) (text rest rest2 : List Nat)
    (hdrs : List (List Nat × List Nat))
    (h : parseHeadersAux fuel 0 rest = .ok (hdrs, rest2)) :
    parseAfterStatus fuel code text rest = parseBody fuel code text hdrs rest2 := by
  unfold parseAfterStatus
  rw [h]

theorem parseBody_chunked_step (fuel code : Nat) (text rest : List Nat)
    (hdrs : List (List Nat × List Nat)) (body : List Nat)
    (hc : isChunked hdrs = true)
    (h : decodeChunkedBody fuel 0 rest = .ok body) :
    parseBody fuel code text hdrs rest =
      (HTTP_OK, mkResponse code text hdrs body true (-1)) := by
  unfold parseBody parseBodyChunked
  rw [hc, h]
  rfl

theorem parseBody_cl_step (fuel code : Nat) (text rest v : List Nat)
    (hdrs : List (List Nat × List Nat))
    (hc : isChunked hdrs = false)
    (h : findHeader hdrs (strBytes "content-length") = some v) :
    parseBody fuel code text hdrs rest = parseBodyCL code text hdrs rest v := by
  unfold parseBody
  rw [hc, h]
  rfl

theorem parseBodyCL_step (code : Nat) (text rest v : List Nat)
    (hdrs : List (List Nat × List Nat)) (len : Nat)
    (h : parseDecimal v = some len) :
    parseBodyCL code text hdrs rest v = parseBodyWithLen code text hdrs rest len := by
  unfold parseBodyCL
  rw [h]

/-- Modelled from the spec: the HTTP client orchestrator's exit paths
(spec §4.5) abstracted over the transport collaborator — a failed
connect or send returns the corresponding error with the response
untouched (all-zero); otherwise the received bytes go through
`http_parse_response`. -/
def http_request_model (connectOk sendOk : Bool) (received : List Nat) :
    Int × http_response_t :=
  if connectOk = false then (HTTP_ERR_CONNECT_FAILED, emptyResponse)
  else if sendOk = false then (HTTP_ERR_SEND_FAILED, emptyResponse)
  else http_parse_response received

/-- The consistency predicate of spec §7: capacity covers length, the
recorded length is the body's true length, and a non-OK return leaves
the all-zero response. -/
def responseConsistent (r : Int × http_response_t) : Prop :=
  r.2.body_len ≤ r.2.body_capacity ∧
  r.2.body_len = r.2.body.length ∧
  (r.1 ≠ HTTP_OK → r.2 = emptyResponse)

theorem responseConsistent_err (e : Int) :
    responseConsistent (e, emptyResponse) := by
  refine ⟨Nat.le_refl _, rfl, fun _ => rfl⟩

theorem responseConsistent_ok (code : Nat) (text : List Nat)
    (hdrs : List (List Nat × List Nat)) (body : List Nat) (ck : Bool)
    (cl : Int) :
    responseConsistent (HTTP_OK, mkResponse code text hdrs body ck cl) := by
  refine ⟨Nat.le_refl _, rfl, fun h => absurd rfl h⟩

theorem parseBody_inv (fuel code : Nat) (text : List Nat)
    (hdrs : List (List Nat × List Nat)) (rest : List Nat) :
    responseConsistent (parseBody fuel code text hdrs rest) := by
  unfold parseBody parseBodyChunked parseBodyCL parseBodyWithLen
  split
  · split
    · exact responseConsistent_err _
    · exact responseConsistent_ok _ _ _ _ _ _
  · split
    · split
      · exact responseConsistent_err _
      · split
        · exact responseConsistent_err _
        · split
          · exact responseConsistent_err _
          · exact responseConsistent_ok _ _ _ _ _ _
    · split
      · exact responseConsistent_err _
      · exact responseConsistent_ok _ _ _ _ _ _

theorem http_parse_response_inv (data : List Nat) :
    responseConsistent (http_parse_response data) := by
  unfold http_parse_response parseAfterLine parseAfterStatus
  split
  · exact responseConsistent_err _
  · split
    · exact responseConsistent_err _
    · split
      · exact responseConsistent_err _
      · exact parseBody_inv _ _ _ _ _

/-- C7: on every return of the response parser and of the orchestrator
model — error returns included, e.g. a malformed status line — the
response satisfies body_capacity ≥ body_len with body_len the body's
true length, and any non-OK return leaves the all-zero (hence trivially
freeable) response: no half-initialized response escapes. -/
theorem http_response_consistency (data : List Nat) (connectOk sendOk : Bool)
    (received : List Nat) :
    responseConsistent (http_parse_response data) ∧
    responseConsistent (http_request_model connectOk sendOk received) := by
  refine ⟨http_parse_response_inv data, ?_⟩
  unfold http_request_model
  split
  · exact responseConsistent_err _
  · split
    · exact responseConsistent_err _
    · exact http_parse_response_inv received

/-- C7 witness: a malformed status line (missing HTTP version token)
leaves the zeroed response. -/
theorem http_response_consistency_witness :
    (http_parse_response (strBytes "BAD" ++ crlf ++ crlf)).1 ≠ HTTP_OK ∧
    (http_parse_response (strBytes "BAD" ++ crlf ++ crlf)).2 = emptyResponse :=
  ⟨by decide,
   (http_response_consistency (strBytes "BAD" ++ crlf ++ crlf) true true []).1.2.2
     (by decide)⟩

/-! ## Chunked round trip (C1) -/

/-- Modelled from the spec: one chunk on the wire — hex size line,
CRLF, the data, CRLF (glossary: length-prefixed chunks). -/
def encodeChunk (c : List Nat) : List Nat :=
  natToHexBytes c.length ++ [13, 10] ++ c ++ [13, 10]

/-- Modelled from the spec: chunked transfer encoding of a chunk
sequence, terminated by the zero-length last chunk and final CRLF. -/
def encodeChunked : List (List Nat) → List Nat
  | [] => [48, 13, 10, 13, 10]
  | c :: cs => encodeChunk c ++ encodeChunked cs

/-- Concatenation of the chunk data: the body the chunks partition. -/
def concatChunks : List (List Nat) → List Nat
  | [] => []
  | c :: cs => c ++ concatChunks cs

/-- Total number of body bytes carried by the chunks. -/
def chunksTotal : List (List Nat) → Nat
  | [] => 0
  | c :: cs => c.length + chunksTotal cs

theorem hex_ne_13 (c : Nat) (h : isHexByte c = true) : c ≠ 13 := by
  simp only [isHexByte, Bool.or_eq_true, Bool.and_eq_true, decide_eq_true_eq] at h
  omega

theorem parseChunkSize_hex (n : Nat) :
    parseChunkSize (natToHexBytes n) = some n := by
  unfold parseChunkSize
  rw [takeWhile_all isHexByte (natToHexBytes n) (natToHexBytes_all_hex n)]
  rw [if_neg (by simpa using natToHexBytes_ne_nil n)]
  rw [List.drop_length]
  simp [hexVal_natToHexBytes]

theorem length_le_encodeChunked (chunks : List (List Nat)) :
    chunks.length ≤ (encodeChunked chunks).length := by
  induction chunks with
  | nil => simp [encodeChunked]
  | cons c cs ih =>
    have h1 : 1 ≤ (encodeChunk c).length := by
      have := natToHexBytes_ne_nil c.length
      unfold encodeChunk
      cases hh : natToHexBytes c.length with
      | nil => exact absurd hh this
      | cons a t => simp
    simp only [encodeChunked, List.length_cons, List.length_append]
    omega

theorem decodeChunked_encode (chunks : List (List Nat)) :
    ∀ total f, (∀ c ∈ chunks, c ≠ []) →
    total + chunksTotal chunks ≤ HTTP_MAX_BODY_SIZE →
    decodeChunkedBody (chunks.length + 2 + f) total (encodeChunked chunks) =
      .ok (concatChunks chunks) := by
  induction chunks with
  | nil =>
    intro total f _ _
    have hfuel : ([] : List (List Nat)).length + 2 + f = (f + 1) + 1 := by
      simp
      omega
    rw [hfuel]
    rfl
  | cons c cs ih =>
    intro total f hne hcap
    have hfuel : (c :: cs).length + 2 + f = (cs.length + 2 + f) + 1 := by
      simp
      omega
    have hshape : encodeChunked (c :: cs) =
        natToHexBytes c.length ++ 13 :: 10 ::
          (c ++ 13 :: 10 :: encodeChunked cs) := by
      simp [encodeChunked, encodeChunk, List.append_assoc]
    rw [hfuel, hshape]
    have hnc : ∀ x ∈ natToHexBytes c.length, x ≠ 13 :=
      fun x hx => hex_ne_13 x (natToHexBytes_all_hex c.length x hx)
    rw [decodeChunkedBody_step _ _ _ _ _ (readLine_append _ _ hnc)]
    rw [decodeAfterLine_step _ _ _ _ _ _ (parseChunkSize_hex c.length)]
    unfold decodeAfterSize
    have hcne : c ≠ [] := hne c (by simp)
    have hc0 : ¬ (c.length = 0) := by simpa using hcne
    rw [if_neg hc0]
    have hcap2 : ¬ (HTTP_MAX_BODY_SIZE < total + c.length) := by
      simp only [chunksTotal] at hcap
      omega
    rw [if_neg hcap2]
    have hlen2 : ¬ ((c ++ 13 :: 10 :: encodeChunked cs).length < c.length + 2) := by
      simp [List.length_append]
    rw [if_neg hlen2]
    have hdrop : (c ++ 13 :: 10 :: encodeChunked cs).drop c.length =
        13 :: 10 :: encodeChunked cs := List.drop_left _ _
    rw [hdrop]
    have hrec : decodeChunkedBody (cs.length + 2 + f) (total + c.length)
        (encodeChunked cs) = .ok (concatChunks cs) :=
      ih (total + c.length) f (fun x hx => hne x (List.mem_cons_of_mem c hx))
        (by simp only [chunksTotal] at hcap; omega)
    simp only [hrec, List.take_left]
    rfl

/-- Modelled from the spec: a complete chunked-transfer response on the
wire — status line, `Transfer-Encoding: chunked` header, blank line,
then the chunked encoding of the body partition. -/
def chunkedResponseBytes (chunks : List (List Nat)) : List Nat :=
  strBytes "HTTP/1.1 200 OK" ++ crlf ++
  strBytes "Transfer-Encoding: chunked" ++ crlf ++ crlf ++
  encodeChunked chunks

/-- C1: for every body B and every partition of B into (nonempty)
chunks of arbitrary sizes whose total stays within the parser's
documented 1 MiB body cap, `http_parse_response` applied to the
chunked-transfer encoding of those chunks succeeds and reproduces
exactly B = concatChunks chunks, byte for byte, in the response body. -/
theorem chunked_roundtrip (chunks : List (List Nat))
    (hne : ∀ c ∈ chunks, c ≠ [])
    (hcap : chunksTotal chunks ≤ HTTP_MAX_BODY_SIZE) :
    (http_parse_response (chunkedResponseBytes chunks)).1 = HTTP_OK ∧
    (http_parse_response (chunkedResponseBytes chunks)).2.body =
      concatChunks chunks := by
  have hshape : chunkedResponseBytes chunks =
      strBytes "HTTP/1.1 200 OK" ++ 13 :: 10 ::
        (strBytes "Transfer-Encoding: chunked" ++ 13 :: 10 ::
          (13 :: 10 :: encodeChunked chunks)) := by
    simp [chunkedResponseBytes, crlf, List.append_assoc]
  have h1 : readLine (chunkedResponseBytes chunks) =
      some (strBytes "HTTP/1.1 200 OK",
        strBytes "Transfer-Encoding: chunked" ++ 13 :: 10 ::
          (13 :: 10 :: encodeChunked chunks)) := by
    rw [hshape]
    exact readLine_append _ _ (by decide)
  rw [http_parse_response_step _ _ _ h1]
  rw [parseAfterLine_step _ 200 (strBytes "OK") _ _ (by decide)]
  have h3 : parseHeadersAux ((chunkedResponseBytes chunks).length + 2) 0
      (strBytes "Transfer-Encoding: chunked" ++ 13 :: 10 ::
        (13 :: 10 :: encodeChunked chunks)) =
      .ok ([(strBytes "Transfer-Encoding", strBytes "chunked")],
        encodeChunked chunks) := by
    rw [show (chunkedResponseBytes chunks).length + 2 =
      ((chunkedResponseBytes chunks).length + 1) + 1 from rfl]
    rw [parseHeadersAux_cons ((chunkedResponseBytes chunks).length + 1) 0
      (strBytes "Transfer-Encoding: chunked")
      (13 :: 10 :: encodeChunked chunks)
      (strBytes "Transfer-Encoding", strBytes "chunked")
      (by decide) (by decide) (by decide) (by decide)]
    rw [parseHeadersAux_blank]
  rw [parseAfterStatus_step _ _ _ _ _ _ h3]
  have h4 : decodeChunkedBody ((chunkedResponseBytes chunks).length + 2) 0
      (encodeChunked chunks) = .ok (concatChunks chunks) := by
    have hled : chunks.length ≤ (chunkedResponseBytes chunks).length := by
      have h5 := length_le_encodeChunked chunks
      have h6 : (encodeChunked chunks).length ≤
          (chunkedResponseBytes chunks).length := by
        simp only [chunkedResponseBytes, List.length_append]
        omega
      omega
    rw [show (chunkedResponseBytes chunks).length + 2 =
      chunks.length + 2 + ((chunkedResponseBytes chunks).length - chunks.length)
      from by omega]
    exact decodeChunked_encode chunks 0 _ hne (by simpa using hcap)
  rw [parseBody_chunked_step _ _ _ _ _ _ (by decide) h4]
  exact ⟨rfl, rfl⟩

/-- C1 witness: the two-chunk partition of a three-byte body. -/
theorem chunked_roundtrip_witness :
    (∀ c ∈ [[97], [98, 99]], c ≠ ([] : List Nat)) ∧
    chunksTotal [[97], [98, 99]] ≤ HTTP_MAX_BODY_SIZE ∧
    (http_parse_response (chunkedResponseBytes [[97], [98, 99]])).1 = HTTP_OK ∧
    (http_parse_response (chunkedResponseBytes [[97], [98, 99]])).2.body =
      concatChunks [[97], [98, 99]] :=
  ⟨by decide, by decide,
   (chunked_roundtrip [[97], [98, 99]] (by decide) (by decide)).1,
   (chunked_roundtrip [[97], [98, 99]] (by decide) (by decide)).2⟩

/-! ## Content-Length cap (C3) -/

theorem digit_ne_13 (c : Nat) (h : isDigitByte c = true) : c ≠ 13 := by
  simp only [isDigitByte, Bool.and_eq_true, decide_eq_true_eq] at h
  omega

theorem dropWhile_space_digits (ds : List Nat) (hds : ds.all isDigitByte = true) :
    (32 :: ds).dropWhile (fun c => c == 32) = ds := by
  cases ds with
  | nil => rfl
  | cons d t =>
    have hd : isDigitByte d = true := by
      simp [List.all_cons] at hds
      exact hds.1
    have hne : (d == 32) = false := by
      simp only [isDigitByte, Bool.and_eq_true, decide_eq_true_eq] at hd
      simp only [beq_eq_false_iff_ne, ne_eq]
      omega
    simp [List.dropWhile, hne]

theorem parseHeaderLine_cl (ds : List Nat) (hds : ds.all isDigitByte = true) :
    parseHeaderLine (strBytes "Content-Length: " ++ ds) =
      some (strBytes "Content-Length", ds) := by
  have hsplit : strBytes "Content-Length: " ++ ds =
      strBytes "Content-Length" ++ 58 :: 32 :: ds := by
    rw [show strBytes "Content-Length: " =
      strBytes "Content-Length" ++ [58, 32] from by decide]
    simp [List.append_assoc]
  rw [hsplit]
  have htw : (strBytes "Content-Length" ++ 58 :: 32 :: ds).takeWhile
      (fun c => c != 58) = strBytes "Content-Length" :=
    takeWhile_append_stop _ _ _ (by decide) (by simp [List.takeWhile])
  simp only [parseHeaderLine, htw]
  rw [List.drop_left]
  show (if strBytes "Content-Length" = [] then none
    else some (strBytes "Content-Length",
      (32 :: ds).dropWhile (fun c => c == 32))) =
    some (strBytes "Content-Length", ds)
  rw [if_neg (by decide), dropWhile_space_digits ds hds]

theorem findHeader_cl (ds : List Nat) :
    findHeader [(strBytes "Content-Length", ds)] (strBytes "content-length") =
      some ds := by
  unfold findHeader
  simp [List.find?,
    show lowerEq (strBytes "Content-Length") (strBytes "content-length") = true
      from by decide]

theorem isChunked_cl (ds : List Nat) :
    isChunked [(strBytes "Content-Length", ds)] = false := by
  unfold isChunked findHeader
  simp [List.find?,
    show lowerEq (strBytes "Content-Length") (strBytes "transfer-encoding") = false
      from by decide]

/-- Modelled from the spec: a complete Content-Length response on the
wire — status line, `Content-Length` header with the declared digit
string, blank line, then the body bytes. -/
def contentLengthResponseBytes (ds tail : List Nat) : List Nat :=
  strBytes "HTTP/1.1 200 OK" ++ crlf ++
  strBytes "Content-Length: " ++ ds ++ crlf ++ crlf ++ tail

/-- C3: a response declaring Content-Length L is accepted exactly when
L ≤ HTTP_MAX_BODY_SIZE (and the declared bytes are available); when L
exceeds the cap the parser fails with HTTP_ERR_BUFFER_OVERFLOW and the
response stays all-zero — no body bytes are copied; within the cap the
body is exactly the first L received bytes. -/
theorem content_length_cap (ds tail : List Nat) (L : Nat)
    (hds : parseDecimal ds = some L) :
    ((http_parse_response (contentLengthResponseBytes ds tail)).1 = HTTP_OK ↔
      (L ≤ HTTP_MAX_BODY_SIZE ∧ L ≤ tail.length)) ∧
    (HTTP_MAX_BODY_SIZE < L →
      http_parse_response (contentLengthResponseBytes ds tail) =
        (HTTP_ERR_BUFFER_OVERFLOW, emptyResponse)) ∧
    (L ≤ HTTP_MAX_BODY_SIZE → L ≤ tail.length →
      (http_parse_response (contentLengthResponseBytes ds tail)).2.body =
        tail.take L) := by
  have hcond : ds ≠ [] ∧ ds.all isDigitByte = true := by
    unfold parseDecimal at hds
    by_cases hc : ds ≠ [] ∧ ds.all isDigitByte
    · exact ⟨hc.1, hc.2⟩
    · rw [if_neg hc] at hds
      cases hds
  have hdigits := hcond.2
  have hkey : http_parse_response (contentLengthResponseBytes ds tail) =
      parseBodyWithLen 200 (strBytes "OK") [(strBytes "Content-Length", ds)]
        tail L := by
    have hshape : contentLengthResponseBytes ds tail =
        strBytes "HTTP/1.1 200 OK" ++ 13 :: 10 ::
          ((strBytes "Content-Length: " ++ ds) ++ 13 :: 10 ::
            (13 :: 10 :: tail)) := by
      simp [contentLengthResponseBytes, crlf, List.append_assoc]
    have h1 : readLine (contentLengthResponseBytes ds tail) =
        some (strBytes "HTTP/1.1 200 OK",
          (strBytes "Content-Length: " ++ ds) ++ 13 :: 10 ::
            (13 :: 10 :: tail)) := by
      rw [hshape]
      exact readLine_append _ _ (by decide)
    rw [http_parse_response_step _ _ _ h1]
    rw [parseAfterLine_step _ 200 (strBytes "OK") _ _ (by decide)]
    have hnc : ∀ c ∈ strBytes "Content-Length: " ++ ds, c ≠ 13 := by
      intro c hc
      rcases List.mem_append.mp hc with hm | hm
      · have hlit : ∀ x ∈ strBytes "Content-Length: ", x ≠ 13 := by decide
        exact hlit c hm
      · exact digit_ne_13 c (List.all_eq_true.mp hdigits c hm)
    have h3 : parseHeadersAux ((contentLengthResponseBytes ds tail).length + 2) 0
        ((strBytes "Content-Length: " ++ ds) ++ 13 :: 10 :: (13 :: 10 :: tail)) =
        .ok ([(strBytes "Content-Length", ds)], tail) := by
      rw [show (contentLengthResponseBytes ds tail).length + 2 =
        ((contentLengthResponseBytes ds tail).length + 1) + 1 from rfl]
      rw [parseHeadersAux_cons _ 0 (strBytes "Content-Length: " ++ ds)
        (13 :: 10 :: tail) (strBytes "Content-Length", ds) hnc
        (by
          intro hh
          rw [List.append_eq_nil] at hh
          exact absurd hh.1 (by decide))
        (by decide) (parseHeaderLine_cl ds hdigits)]
      rw [parseHeadersAux_blank]
    rw [parseAfterStatus_step _ _ _ _ _ _ h3]
    rw [parseBody_cl_step _ _ _ _ _ _ (isChunked_cl ds) (findHeader_cl ds)]
    rw [parseBodyCL_step _ _ _ _ _ _ hds]
  rw [hkey]
  unfold parseBodyWithLen
  refine ⟨?_, ?_, ?_⟩
  · split_ifs with h1 h2
    · simp only [HTTP_ERR_BUFFER_OVERFLOW, HTTP_OK]
      constructor
      · intro hcontra
        cases hcontra
      · intro hr
        omega
    · simp only [HTTP_ERR_INVALID_RESPONSE, HTTP_OK]
      constructor
      · intro hcontra
        cases hcontra
      · intro hr
        omega
    · constructor
      · intro _
        exact ⟨Nat.not_lt.mp h1, Nat.not_lt.mp h2⟩
      · intro _
        rfl
  · intro hL
    rw [if_pos hL]
  · intro h1 h2
    rw [if_neg (Nat.not_lt.mpr h1), if_neg (Nat.not_lt.mpr h2)]
    rfl

/-- C3 witness: a declared length one past the 1 MiB cap is rejected
with BufferOverflow before any body bytes are copied. -/
theorem content_length_cap_witness :
    parseDecimal (strBytes "1048577") = some 1048577 ∧
    HTTP_MAX_BODY_SIZE < 1048577 ∧
    http_parse_response (contentLengthResponseBytes (strBytes "1048577") []) =
      (HTTP_ERR_BUFFER_OVERFLOW, emptyResponse) :=
  ⟨by decide, by decide,
   (content_length_cap (strBytes "1048577") [] 1048577 (by decide)).2.1
     (by decide)⟩

/-! ## HTTP request building (spec §4.3, `http_build_request` in
src/net/http/http.h) -/

/-- HTTP method enumeration mirroring `http_method_t`
(src/net/http/http.h lines 33-39). -/
inductive http_method_t where
  | GET
  | POST
  | HEAD
  | PUT
  | DELETE
deriving Repr, DecidableEq

/-- `http_method_string` (src/net/http/http.h line 242). -/
def http_method_string : http_method_t → List Nat
  | .GET => strBytes "GET"
  | .POST => strBytes "POST"
  | .HEAD => strBytes "HEAD"
  | .PUT => strBytes "PUT"
  | .DELETE => strBytes "DELETE"

/-- HTTP request structure mirroring `http_request_t`
(src/net/http/http.h lines 68-82). -/
structure http_request_t where
  method : http_method_t
  host : List Nat
  port : Nat
  path : List Nat
  headers : List (List Nat × List Nat)
  body : Option (List Nat)
  timeout_ms : Nat
deriving Repr, DecidableEq

/-- Whether an explicit Host header has already been set. -/
def hasHostHeader (hdrs : List (List Nat × List Nat)) : Bool :=
  hdrs.any (fun h => lowerEq h.1 (strBytes "host"))

/-- One header on the wire: `Name: Value CRLF`. -/
def renderHeader (h : List Nat × List Nat) : List Nat :=
  h.1 ++ [58, 32] ++ h.2 ++ crlf

/-- Modelled from the spec: the assembled request bytes — request line,
`Host` header (port omitted when 80, skipped when set explicitly), the
request headers, an implicit `Content-Length` when a body is present,
the blank line, then the raw body bytes (spec §4.3). -/
def assembleRequest (req : http_request_t) : List Nat :=
  http_method_string req.method ++ [32] ++ req.path ++ [32] ++
    strBytes "HTTP/1.1" ++ crlf ++
  (if hasHostHeader req.headers then []
   else strBytes "Host: " ++ req.host ++
     (if req.port = HTTP_DEFAULT_PORT then [] else 58 :: natToDecBytes req.port) ++
     crlf) ++
  (req.headers.map renderHeader).foldr (fun a b => a ++ b) [] ++
  (match req.body with
   | some b => strBytes "Content-Length: " ++ natToDecBytes b.length ++ crlf
   | none => []) ++
  crlf ++
  (match req.body with
   | some b => b
   | none => [])

/-- Modelled from the spec: `http_build_request(request, buffer,
buffer_size)` (src/net/http/http.h line 192) — computes the assembled
size before writing; when it exceeds buffer_size it returns
HTTP_ERR_BUFFER_OVERFLOW and writes nothing, never a truncated
prefix. -/
def http_build_request (req : http_request_t) (buffer_size : Nat) :
    Except Int (List Nat) :=
  if buffer_size < (assembleRequest req).length then
    .error HTTP_ERR_BUFFER_OVERFLOW
  else .ok (assembleRequest req)

/-- C2: `http_build_request` never produces more than buffer_size
bytes; whenever the assembled request would exceed buffer_size it
returns HTTP_ERR_BUFFER_OVERFLOW instead of a truncated write. -/
theorem http_build_request_bounded (req : http_request_t) (buffer_size : Nat) :
    match http_build_request req buffer_size with
    | .ok out => out.length ≤ buffer_size
    | .error e => e = HTTP_ERR_BUFFER_OVERFLOW ∧
        buffer_size < (assembleRequest req).length := by
  unfold http_build_request
  split_ifs with h
  · exact ⟨rfl, h⟩
  · exact Nat.not_lt.mp h

/-! ## Ping controller (spec §4.7, src/net/icmp/icmp.h) -/

/-- Ping statistics mirroring `ping_stats_t`
(src/net/icmp/icmp.h lines 111-130). -/
structure ping_stats_t where
  packets_sent : Nat
  packets_received : Nat
  packets_lost : Nat
  errors : Nat
  rtt_min : Nat
  rtt_max : Nat
  rtt_sum : Nat
  rtt_avg : Nat
  start_time : Nat
  end_time : Nat
  dest_ip : Nat
  active : Bool
deriving Repr, DecidableEq

/-- The zeroed statistics of an idle controller. -/
def initStats : ping_stats_t :=
  { packets_sent := 0, packets_received := 0, packets_lost := 0, errors := 0,
    rtt_min := 0, rtt_max := 0, rtt_sum := 0, rtt_avg := 0,
    start_time := 0, end_time := 0, dest_ip := 0, active := false }

/-- The ping controller's process-wide session state (spec §3
PingStats singleton). -/
structure icmp_state where
  stats : ping_stats_t
deriving Repr, DecidableEq

/-- Modelled from the spec: `ping_start(dest_ip)`
(src/net/icmp/icmp.h line 237) — rejects with ICMP_ERR_BUSY while a
session is active, leaving the running session untouched; otherwise
begins a fresh continuous session. -/
def ping_start (st : icmp_state) (dest_ip now : Nat) : Int × icmp_state :=
  if st.stats.active then (ICMP_ERR_BUSY, st)
  else (ICMP_OK,
    { stats :=
        { initStats with
            active := true, dest_ip := dest_ip, start_time := now } })

/-- RTT bookkeeping for one received reply: first reply seeds min and
max, later replies fold in. -/
def recordReply (s : ping_stats_t) (rtt : Nat) : ping_stats_t :=
  { s with
    packets_received := s.packets_received + 1,
    rtt_sum := s.rtt_sum + rtt,
    rtt_min := if s.packets_received = 0 then rtt else Nat.min s.rtt_min rtt,
    rtt_max := if s.packets_received = 0 then rtt else Nat.max s.rtt_max rtt }

/-- One blocking-loop iteration: send echo i, then either fold in the
reply's RTT or count the echo as lost on timeout (spec §4.7). -/
def pingIter (reply : Nat → Option Nat) (s : ping_stats_t) (i : Nat) :
    ping_stats_t :=
  match reply i with
  | some rtt => recordReply { s with packets_sent := s.packets_sent + 1 } rtt
  | none =>
    { s with
        packets_sent := s.packets_sent + 1,
        packets_lost := s.packets_lost + 1 }

/-- The blocking ping loop over the remaining count. -/
def pingLoop (reply : Nat → Option Nat) :
    Nat → ping_stats_t → Nat → ping_stats_t
  | 0, s, _ => s
  | k + 1, s, i => pingLoop reply k (pingIter reply s i) (i + 1)

/-- Loop-completion finalization (spec §4.7): end_time, the RTT
average (0 when nothing was received), and active := false. -/
def finalizeStats (s : ping_stats_t) (endTime : Nat) : ping_stats_t :=
  { s with
      end_time := endTime,
      rtt_avg := if s.packets_received = 0 then 0
                 else s.rtt_sum / s.packets_received,
      active := false }

/-- Modelled from the spec: the blocking `ping(dest_ip, count,
timeout_ms)` (src/net/icmp/icmp.h line 227, spec §4.7).  The reply
oracle gives, per sequence number, the RTT of the matching reply that
arrived within the timeout, or `none` on timeout; t0 and tEnd are the
clock readings at start and completion.  Returns NULL (none) while a
session is already active. -/
def ping (st : icmp_state) (dest count timeout_ms : Nat)
    (reply : Nat → Option Nat) (t0 tEnd : Nat) :
    Option ping_stats_t × icmp_state :=
  if st.stats.active then (none, st)
  else
    let n := if count = 0 then PING_DEFAULT_COUNT else count
    let s2 := finalizeStats
      (pingLoop reply n
        { initStats with
            active := true, dest_ip := dest, start_time := t0 } 0)
      tEnd
    (some s2, { stats := s2 })

/-- Modelled from the spec: `ping_stop()` (src/net/icmp/icmp.h
line 245) — finalizes a continuous session's statistics identically to
the blocking path, recomputing lost = sent − received. -/
def ping_stop (st : icmp_state) (endTime : Nat) : Int × icmp_state :=
  if st.stats.active = false then (ICMP_ERR_INVALID, st)
  else (ICMP_OK,
    { stats := finalizeStats
        { st.stats with
            packets_lost :=
              st.stats.packets_sent - st.stats.packets_received } endTime })

/-- C8: `ping_start` while a session is already active returns
ICMP_ERR_BUSY and leaves the running session's statistics — every
counter, RTT field, timestamp, target and the active flag —
unchanged. -/
theorem ping_start_busy (st : icmp_state) (dest now : Nat)
    (h : st.stats.active = true) :
    ping_start st dest now = (ICMP_ERR_BUSY, st) := by
  unfold ping_start
  rw [if_pos h]

/-- A concrete mid-session controller state for evaluation. -/
def busySample : icmp_state :=
  { stats :=
      { initStats with
          active := true, dest_ip := 7, packets_sent := 3 } }

/-- C8 witness: a concrete active session is left untouched. -/
theorem ping_start_busy_witness :
    busySample.stats.active = true ∧
    ping_start busySample 9 5 = (ICMP_ERR_BUSY, busySample) :=
  ⟨rfl, ping_start_busy busySample 9 5 rfl⟩

/-- Modelled from the spec: the `ping(dest, 4, 1000)` test scenario's
reply pattern — replies with RTTs 10, 20, 30 ms for sequences 0..2,
sequence 3 times out (spec §8). -/
def scenarioReply : Nat → Option Nat := fun i =>
  if i = 0 then some 10
  else if i = 1 then some 20
  else if i = 2 then some 30
  else none

/-- C9: a completed blocking ping finalizes end_time, sets
rtt_avg = rtt_sum / packets_received (0 when none received), clears the
active flag, and returns the stats; in the 4-request scenario with
replies of 10, 20, 30 ms and one timeout the stats are sent=4,
received=3, lost=1, min=10, max=30, avg=20. -/
theorem ping_blocking_spec (st : icmp_state) (dest count timeout : Nat)
    (reply : Nat → Option Nat) (t0 tEnd : Nat)
    (h : st.stats.active = false) :
    (∃ s : ping_stats_t,
      (ping st dest count timeout reply t0 tEnd).1 = some s ∧
      s.rtt_avg = (if s.packets_received = 0 then 0
                   else s.rtt_sum / s.packets_received) ∧
      s.active = false ∧
      s.end_time = tEnd ∧
      (ping st dest count timeout reply t0 tEnd).2.stats = s) ∧
    ((ping { stats := initStats } 1 4 1000 scenarioReply 0 100).1.map
        (fun s => (s.packets_sent, s.packets_received, s.packets_lost,
                   s.rtt_min, s.rtt_max, s.rtt_avg)) =
      some (4, 3, 1, 10, 30, 20)) := by
  constructor
  · have hmain : ping st dest count timeout reply t0 tEnd =
        (some (finalizeStats
          (pingLoop reply (if count = 0 then PING_DEFAULT_COUNT else count)
            { initStats with
                active := true, dest_ip := dest, start_time := t0 } 0) tEnd),
         { stats := finalizeStats
            (pingLoop reply (if count = 0 then PING_DEFAULT_COUNT else count)
              { initStats with
                  active := true, dest_ip := dest, start_time := t0 } 0) tEnd }) := by
      unfold ping
      rw [if_neg (by simp [h])]
    refine ⟨finalizeStats
      (pingLoop reply (if count = 0 then PING_DEFAULT_COUNT else count)
        { initStats with
            active := true, dest_ip := dest, start_time := t0 } 0) tEnd,
      ?_, ?_, ?_, ?_, ?_⟩
    · rw [hmain]
    · rfl
    · rfl
    · rfl
    · rw [hmain]
  · decide

/-- C9 witness: the blocking path evaluated from the idle state with a
single always-lost echo. -/
theorem ping_blocking_spec_witness :
    ({ stats := initStats } : icmp_state).stats.active = false ∧
    (∃ s : ping_stats_t,
      (ping { stats := initStats } 2 1 500 (fun _ => none) 3 9).1 = some s ∧
      s.rtt_avg = (if s.packets_received = 0 then 0
                   else s.rtt_sum / s.packets_received) ∧
      s.active = false ∧
      s.end_time = 9 ∧
      (ping { stats := initStats } 2 1 500 (fun _ => none) 3 9).2.stats = s) :=
  ⟨rfl,
   (ping_blocking_spec { stats := initStats } 2 1 500 (fun _ => none) 3 9 rfl).1⟩

theorem pingIter_counts (reply : Nat → Option Nat) (s : ping_stats_t) (i : Nat)
    (h1 : s.packets_lost = s.packets_sent - s.packets_received)
    (h2 : s.packets_received ≤ s.packets_sent) :
    (pingIter reply s i).packets_lost =
      (pingIter reply s i).packets_sent -
        (pingIter reply s i).packets_received ∧
    (pingIter reply s i).packets_received ≤ (pingIter reply s i).packets_sent := by
  unfold pingIter recordReply
  cases reply i with
  | some rtt =>
    simp only
    omega
  | none =>
    simp only
    omega

theorem pingLoop_counts (reply : Nat → Option Nat) (k : Nat) :
    ∀ (s : ping_stats_t) (i : Nat),
      s.packets_lost = s.packets_sent - s.packets_received →
      s.packets_received ≤ s.packets_sent →
      (pingLoop reply k s i).packets_lost =
        (pingLoop reply k s i).packets_sent -
          (pingLoop reply k s i).packets_received ∧
      (pingLoop reply k s i).packets_received ≤
        (pingLoop reply k s i).packets_sent := by
  induction k with
  | zero =>
    intro s i h1 h2
    exact ⟨h1, h2⟩
  | succ k ih =>
    intro s i h1 h2
    have hstep := pingIter_counts reply s i h1 h2
    exact ih (pingIter reply s i) (i + 1) hstep.1 hstep.2

/-- C10: after every completed ping session — a blocking `ping` call
returning stats, or `ping_stop` finalizing a continuous session — the
statistics satisfy packets_lost = packets_sent − packets_received. -/
theorem ping_lost_invariant :
    (∀ (st : icmp_state) (dest count timeout : Nat)
       (reply : Nat → Option Nat) (t0 tEnd : Nat) (s : ping_stats_t),
      (ping st dest count timeout reply t0 tEnd).1 = some s →
      s.packets_lost = s.packets_sent - s.packets_received) ∧
    (∀ (st : icmp_state) (tEnd : Nat),
      st.stats.active = true →
      (ping_stop st tEnd).2.stats.packets_lost =
        (ping_stop st tEnd).2.stats.packets_sent -
          (ping_stop st tEnd).2.stats.packets_received) := by
  constructor
  · intro st dest count timeout reply t0 tEnd s hsome
    unfold ping at hsome
    split at hsome
    · cases hsome
    · simp only [Option.some.injEq] at hsome
      subst hsome
      have hloop := pingLoop_counts reply
        (if count = 0 then PING_DEFAULT_COUNT else count)
        { initStats with
            active := true, dest_ip := dest, start_time := t0 } 0
        (by simp [initStats]) (by simp [initStats])
      simp only [finalizeStats]
      exact hloop.1
  · intro st tEnd hact
    unfold ping_stop
    rw [if_neg (by simp [hact])]
    rfl

/-- C10 witness: stopping a concrete mid-session continuous ping. -/
theorem ping_lost_invariant_witness :
    busySample.stats.active = true ∧
    (ping_stop busySample 7).2.stats.packets_lost =
      (ping_stop busySample 7).2.stats.packets_sent -
        (ping_stop busySample 7).2.stats.packets_received :=
  ⟨rfl, ping_lost_invariant.2 busySample 7 rfl⟩
